import Mathlib

/-!
Shallow embedding of the solutions Vuex store module (`src/unnamed/part_000`)
and of the TeamSelector component
(`src/frontend/components/project/TeamSelector.vue`) of the invent repository.

JavaScript strings are modelled as lists of characters (`JStr`); a JS
expression that would throw a TypeError (a property access on `undefined`)
is modelled by `Option`, with `none` standing for the thrown exception.
-/

namespace Invent

/-- A JavaScript string, modelled as a list of characters. -/
abbrev JStr := List Char

/-- Embeds `s.toLowerCase()`. -/
def jsToLower (s : JStr) : JStr := s.map Char.toLower

/-- Embeds `s.startsWith(p)`: `jsStartsWith s p` is `true` when `p` occurs
at the start of `s`. -/
def jsStartsWith : JStr → JStr → Bool
  | _, [] => true
  | [], _ :: _ => false
  | c :: s, d :: p => c == d && jsStartsWith s p

/-- Embeds JavaScript `Array.prototype.map` with a callback that can throw:
the whole evaluation throws (`none`) as soon as the callback throws on some
element. -/
def mapOrThrow (f : α → Option β) : List α → Option (List β)
  | [] => some []
  | a :: l =>
    match f a with
    | none => none
    | some b =>
      match mapOrThrow f l with
      | none => none
      | some bs => some (b :: bs)

/-- A solution record from the backend: an `id`, a `countries` field, and
the remaining payload fields (`name`, plus `extra` standing for any further
field carried along unchanged). -/
structure Solution where
  id : Nat
  name : JStr
  countries : List JStr
  extra : Int
  deriving Repr, DecidableEq

/-- The state slice of the solutions store module. `allSolutionsList` is the
body of `/api/portfolio/{id}`: `none` models a plain `{}` with no
`solutions` field (the clean state), `some sols` an object whose
`solutions` field holds `sols`. `allActiveSolutionsList` is the body of
`api/solution`, an array. -/
structure SolutionState where
  allSolutionsList : Option (List Solution)
  allActiveSolutionsList : List Solution
  deriving Repr, DecidableEq

/-- `cleanState`: `allSolutionsList` is the empty object `{}` (no
`solutions` field), `allActiveSolutionsList` is the empty array. -/
def cleanState : SolutionState :=
  { allSolutionsList := none, allActiveSolutionsList := [] }

/-- The module's initial `state()`, a fresh copy of `cleanState`. -/
def initialState : SolutionState := cleanState

/-- Mutation `PUT_SOLUTION_LIST`: stores the payload in
`allSolutionsList`. -/
def PUT_SOLUTION_LIST (s : SolutionState) (data : Option (List Solution)) :
    SolutionState :=
  { s with allSolutionsList := data }

/-- Mutation `PUT_ALL_ACTIVE_SOLUTIONS_LIST`: stores the payload in
`allActiveSolutionsList`. -/
def PUT_ALL_ACTIVE_SOLUTIONS_LIST (s : SolutionState) (data : List Solution) :
    SolutionState :=
  { s with allActiveSolutionsList := data }

/-- An HTTP request issued through the axios client. -/
structure Request where
  method : String
  url : String
  deriving Repr, DecidableEq

/-- Action `loadSolutionsList(id)`: issues `GET /api/portfolio/{id}`; on a
successful response with body `responseData` it commits
`PUT_SOLUTION_LIST` and returns the body to the caller. The result is the
request issued, the state after the commit, and the returned value. -/
def loadSolutionsList (s : SolutionState) (id : Nat)
    (responseData : Option (List Solution)) :
    Request × SolutionState × Option (List Solution) :=
  ({ method := "GET", url := "/api/portfolio/" ++ toString id },
    PUT_SOLUTION_LIST s responseData, responseData)

/-- Action `loadAllActiveSolutionsList()`: issues a GET for the literal URL
string `api/solution` (no leading slash in the source); on success commits
`PUT_ALL_ACTIVE_SOLUTIONS_LIST` and returns the body. -/
def loadAllActiveSolutionsList (s : SolutionState)
    (responseData : List Solution) :
    Request × SolutionState × List Solution :=
  ({ method := "GET", url := "api/solution" },
    PUT_ALL_ACTIVE_SOLUTIONS_LIST s responseData, responseData)

/-- Getter `getSolutionsList`: `state.allSolutionsList.solutions`, which is
`undefined` (`none`) when the object has no `solutions` field. -/
def getSolutionsList (s : SolutionState) : Option (List Solution) :=
  s.allSolutionsList

/-- Getter `getAllActiveSolutionsList`. -/
def getAllActiveSolutionsList (s : SolutionState) : List Solution :=
  s.allActiveSolutionsList

/-- One step of the `getSolutionsListWithCountries` callback:
`{ ...solution, countries: allActiveSolutionsList.find(a => a.id === solution.id).countries }`.
`none` models the TypeError thrown when `find` returns `undefined`. -/
def mergeCountries (active : List Solution) (solution : Solution) :
    Option Solution :=
  (active.find? (fun activeSolution => activeSolution.id == solution.id)).map
    (fun activeSolution => { solution with countries := activeSolution.countries })

/-- Getter `getSolutionsListWithCountries`: maps `mergeCountries` over
`state.allSolutionsList.solutions`; `none` models the TypeError thrown
either because `solutions` is `undefined` (so `.map` fails) or because some
lookup in `allActiveSolutionsList` fails. -/
def getSolutionsListWithCountries (s : SolutionState) :
    Option (List Solution) :=
  match s.allSolutionsList with
  | none => none
  | some solutions => mapOrThrow (mergeCountries s.allActiveSolutionsList) solutions

/-- Evaluating the getter is pure: it yields a value (or throws) and passes
the state through untouched. -/
def readSolutionsListWithCountries (s : SolutionState) :
    Option (List Solution) × SolutionState :=
  (getSolutionsListWithCountries s, s)

/-- A user profile record from `system/getUserProfilesWithLabel`. -/
structure Profile where
  id : Nat
  label : JStr
  name : JStr
  email : JStr
  deriving Repr, DecidableEq

namespace TeamSelector

/-- `filter(val, query)`: `val.toLowerCase().startsWith(query.toLowerCase())`. -/
def filter (val query : JStr) : Bool :=
  jsStartsWith (jsToLower val) (jsToLower query)

/-- The predicate applied to each profile inside `filterMethod`:
`filter(p.name ? p.name : p.email, query) || (p.email ? filter(p.email, query) : false)`. -/
def filterPred (query : JStr) (p : Profile) : Bool :=
  filter (if p.name ≠ [] then p.name else p.email) query ||
    (if p.email ≠ [] then filter p.email query else false)

/-- `filterMethod(query)`: with a truthy (non-empty) query, filters the
loaded profiles by `filterPred`; otherwise sets `filteredOptions` to `[]`. -/
def filterMethod (userProfiles : List Profile) (query : JStr) : List Profile :=
  if query ≠ [] then userProfiles.filter (filterPred query) else []

/-- `innerValue` get: maps each user id to the label of the first profile
with that id; `none` models the TypeError on `.label` when the lookup
returns `undefined`. -/
def innerValueGet (userProfiles : List Profile) (value : List Nat) :
    Option (List JStr) :=
  mapOrThrow
    (fun userId =>
      (userProfiles.find? (fun profile => profile.id == userId)).map
        (fun profile => profile.label))
    value

/-- `innerValue` set: maps each chosen label back to the id of the first
profile with that label; `none` models the TypeError on `.id` when the
lookup returns `undefined`. -/
def innerValueSet (userProfiles : List Profile) (labels : List JStr) :
    Option (List Nat) :=
  mapOrThrow
    (fun label =>
      (userProfiles.find? (fun profile => profile.label == label)).map
        (fun profile => profile.id))
    labels

end TeamSelector

/-! Helper lemmas. -/

theorem mapOrThrow_eq_map {f : α → Option β} {g : α → β} {l : List α}
    (h : ∀ x ∈ l, f x = some (g x)) : mapOrThrow f l = some (l.map g) := by
  induction l with
  | nil => rfl
  | cons a l ih =>
    have ha : f a = some (g a) := h a (by simp)
    have ih' := ih (fun x hx => h x (by simp [hx]))
    simp [mapOrThrow, ha, ih']

theorem mapOrThrow_eq_none {f : α → Option β} {l : List α} {a : α}
    (ha : a ∈ l) (hf : f a = none) : mapOrThrow f l = none := by
  induction l with
  | nil => cases ha
  | cons b l ih =>
    rcases List.mem_cons.mp ha with rfl | h
    · simp [mapOrThrow, hf]
    · cases hb : f b with
      | none => simp [mapOrThrow, hb]
      | some v => simp [mapOrThrow, hb, ih h]

theorem jsStartsWith_iff (s p : JStr) : jsStartsWith s p = true ↔ p <+: s := by
  induction s generalizing p with
  | nil =>
    cases p with
    | nil => simp [jsStartsWith]
    | cons d p => simp [jsStartsWith]
  | cons c s ih =>
    cases p with
    | nil => simp [jsStartsWith]
    | cons d p =>
      simp only [jsStartsWith, Bool.and_eq_true, beq_iff_eq, ih,
        List.cons_prefix_cons]
      exact and_congr_left' eq_comm

theorem jsToLower_eq_nil_iff (s : JStr) : jsToLower s = [] ↔ s = [] := by
  simp [jsToLower]

theorem TeamSelector.filterPred_iff (query : JStr) (hq : query ≠ [])
    (p : Profile) :
    TeamSelector.filterPred query p = true ↔
      (jsToLower query <+: jsToLower p.name ∨
        jsToLower query <+: jsToLower p.email) := by
  have hlq : jsToLower query ≠ [] := by
    simp [jsToLower_eq_nil_iff, hq]
  have hfil : ∀ val : JStr,
      TeamSelector.filter val query = true ↔
        jsToLower query <+: jsToLower val :=
    fun val => jsStartsWith_iff (jsToLower val) (jsToLower query)
  have hnilp : ¬ jsToLower query <+: jsToLower ([] : JStr) := by
    intro h
    exact hlq (List.prefix_nil.mp (by simpa [jsToLower] using h))
  by_cases hn : p.name = []
  · by_cases he : p.email = []
    · simp only [TeamSelector.filterPred, hn, he, ne_eq,
        not_true_eq_false, if_false, Bool.or_eq_true, hfil]
      constructor
      · rintro (h | h)
        · exact absurd h hnilp
        · cases h
      · rintro (h | h) <;> exact absurd h hnilp
    · simp only [TeamSelector.filterPred, hn, he, ne_eq,
        not_true_eq_false, not_false_eq_true, if_false, if_true,
        Bool.or_eq_true, hfil]
      constructor
      · rintro (h | h) <;> exact Or.inr h
      · rintro (h | h)
        · exact absurd h hnilp
        · exact Or.inl h
  · by_cases he : p.email = []
    · simp only [TeamSelector.filterPred, hn, he, ne_eq,
        not_true_eq_false, not_false_eq_true, if_false, if_true,
        Bool.or_eq_true, hfil]
      constructor
      · rintro (h | h)
        · exact Or.inl h
        · cases h
      · rintro (h | h)
        · exact Or.inl h
        · exact absurd h hnilp
    · simp only [TeamSelector.filterPred, hn, he, ne_eq,
        not_false_eq_true, if_true, Bool.or_eq_true, hfil]

/-! Claim theorems. -/

/-- The merged record produced for one solution when its lookup in the
active list succeeds (and the solution itself when it does not); used to
describe the getter's output. -/
def mergedSolution (active : List Solution) (solution : Solution) : Solution :=
  match active.find? (fun activeSolution => activeSolution.id == solution.id) with
  | some activeSolution => { solution with countries := activeSolution.countries }
  | none => solution

/-- C1: when every id occurring in `allSolutionsList.solutions` also occurs
in `allActiveSolutionsList`, `getSolutionsListWithCountries` returns one
record per solution, in the same order, whose `countries` field equals the
`countries` of the first element of `allActiveSolutionsList` with matching
id and whose other fields equal the original solution's fields. -/
theorem C1_getter_merges_countries (s : SolutionState) (sols : List Solution)
    (hs : s.allSolutionsList = some sols)
    (hall : ∀ sol ∈ sols, ∃ a ∈ s.allActiveSolutionsList, a.id = sol.id) :
    ∃ res, getSolutionsListWithCountries s = some res ∧
      res.length = sols.length ∧
      ∀ i, i < sols.length →
        ∃ sol r a, sols[i]? = some sol ∧ res[i]? = some r ∧
          s.allActiveSolutionsList.find?
              (fun activeSolution => activeSolution.id == sol.id) = some a ∧
          r.countries = a.countries ∧ r.id = sol.id ∧ r.name = sol.name ∧
          r.extra = sol.extra := by
  have hsome : ∀ sol ∈ sols, ∃ a,
      s.allActiveSolutionsList.find?
        (fun activeSolution => activeSolution.id == sol.id) = some a := by
    intro sol hmem
    obtain ⟨a, hamem, haid⟩ := hall sol hmem
    have hisSome : (s.allActiveSolutionsList.find?
        (fun activeSolution => activeSolution.id == sol.id)).isSome := by
      rw [List.find?_isSome]
      exact ⟨a, hamem, by simp [haid]⟩
    exact Option.isSome_iff_exists.mp hisSome
  have hmap : ∀ sol ∈ sols,
      mergeCountries s.allActiveSolutionsList sol =
        some (mergedSolution s.allActiveSolutionsList sol) := by
    intro sol hmem
    obtain ⟨a, ha⟩ := hsome sol hmem
    simp [mergeCountries, mergedSolution, ha]
  refine ⟨sols.map (mergedSolution s.allActiveSolutionsList), ?_, by simp, ?_⟩
  · unfold getSolutionsListWithCountries
    rw [hs]
    exact mapOrThrow_eq_map hmap
  · intro i hi
    have hsol : sols[i]? = some sols[i] := List.getElem?_eq_getElem hi
    have hmem : sols[i] ∈ sols := List.getElem_mem hi
    obtain ⟨a, ha⟩ := hsome sols[i] hmem
    refine ⟨sols[i], mergedSolution s.allActiveSolutionsList sols[i], a,
      hsol, ?_, ha, ?_, ?_, ?_, ?_⟩
    · rw [List.getElem?_map, hsol]
      rfl
    · simp [mergedSolution, ha]
    · simp [mergedSolution, ha]
    · simp [mergedSolution, ha]
    · simp [mergedSolution, ha]

/-- C1 witness: a concrete state with one solution whose id occurs in the
active list, evaluated through `C1_getter_merges_countries`. -/
theorem C1_getter_merges_countries_witness :
    ∃ res, getSolutionsListWithCountries
        { allSolutionsList :=
            some [{ id := 1, name := ['s'], countries := [], extra := 0 }],
          allActiveSolutionsList :=
            [{ id := 1, name := ['a'], countries := [['F', 'R']], extra := 2 }] } =
          some res ∧
      res.length =
        [({ id := 1, name := ['s'], countries := [], extra := 0 } : Solution)].length ∧
      ∀ i, i < [({ id := 1, name := ['s'], countries := [], extra := 0 } : Solution)].length →
        ∃ sol r a,
          [({ id := 1, name := ['s'], countries := [], extra := 0 } : Solution)][i]? =
              some sol ∧
          res[i]? = some r ∧
          List.find?
              (fun activeSolution => activeSolution.id == sol.id)
              [({ id := 1, name := ['a'], countries := [['F', 'R']], extra := 2 } : Solution)] =
            some a ∧
          r.countries = a.countries ∧ r.id = sol.id ∧ r.name = sol.name ∧
          r.extra = sol.extra :=
  C1_getter_merges_countries
    { allSolutionsList :=
        some [{ id := 1, name := ['s'], countries := [], extra := 0 }],
      allActiveSolutionsList :=
        [{ id := 1, name := ['a'], countries := [['F', 'R']], extra := 2 }] }
    [{ id := 1, name := ['s'], countries := [], extra := 0 }]
    rfl (by decide)

/-- C2: when some id occurs in `allSolutionsList.solutions` but no element
of `allActiveSolutionsList` carries it, evaluating
`getSolutionsListWithCountries` throws (`none`) rather than skipping the
unmatched solution or returning a partial result, and the state is passed
through unchanged by the failed evaluation. -/
theorem C2_unmatched_id_throws (s : SolutionState) (sols : List Solution)
    (sol : Solution) (hs : s.allSolutionsList = some sols) (hmem : sol ∈ sols)
    (hmiss : ∀ a ∈ s.allActiveSolutionsList, a.id ≠ sol.id) :
    readSolutionsListWithCountries s = (none, s) := by
  have hfind : s.allActiveSolutionsList.find?
      (fun activeSolution => activeSolution.id == sol.id) = none := by
    rw [List.find?_eq_none]
    intro a ha
    simpa using hmiss a ha
  have hmerge : mergeCountries s.allActiveSolutionsList sol = none := by
    simp [mergeCountries, hfind]
  unfold readSolutionsListWithCountries getSolutionsListWithCountries
  rw [hs]
  exact congrArg (fun x => (x, s)) (mapOrThrow_eq_none hmem hmerge)

/-- C2 witness: a concrete state whose only solution has an id absent from
the active list, evaluated through `C2_unmatched_id_throws`. -/
theorem C2_unmatched_id_throws_witness :
    readSolutionsListWithCountries
        { allSolutionsList :=
            some [{ id := 5, name := ['s'], countries := [], extra := 0 }],
          allActiveSolutionsList :=
            [{ id := 1, name := ['a'], countries := [['F', 'R']], extra := 2 }] } =
      (none,
        { allSolutionsList :=
            some [{ id := 5, name := ['s'], countries := [], extra := 0 }],
          allActiveSolutionsList :=
            [{ id := 1, name := ['a'], countries := [['F', 'R']], extra := 2 }] }) :=
  C2_unmatched_id_throws
    { allSolutionsList :=
        some [{ id := 5, name := ['s'], countries := [], extra := 0 }],
      allActiveSolutionsList :=
        [{ id := 1, name := ['a'], countries := [['F', 'R']], extra := 2 }] }
    [{ id := 5, name := ['s'], countries := [], extra := 0 }]
    { id := 5, name := ['s'], countries := [], extra := 0 }
    rfl (by decide) (by decide)

/-- C3: for every portfolio id and every successful response,
`loadSolutionsList(id)` issues a GET to `/api/portfolio/{id}`, replaces
`allSolutionsList` with the exact response body (no transformation of any
field), and returns that same payload to the caller. -/
theorem C3_loadSolutionsList_exact_body (s : SolutionState) (id : Nat)
    (responseData : Option (List Solution)) :
    (loadSolutionsList s id responseData).1 =
        { method := "GET", url := "/api/portfolio/" ++ toString id } ∧
      (loadSolutionsList s id responseData).2.1.allSolutionsList =
        responseData ∧
      (loadSolutionsList s id responseData).2.2 = responseData :=
  ⟨rfl, rfl, rfl⟩

/-- C7 counterexample: `loadAllActiveSolutionsList` does not request the
URL `/api/solution`: the source passes the literal `'api/solution'`,
without a leading slash. -/
theorem C7_counterexample_url_has_no_leading_slash :
    (loadAllActiveSolutionsList cleanState []).1.url ≠ "/api/solution" := by
  decide

/-- C7 (amended): `loadAllActiveSolutionsList()` issues a GET read for the
literal URL string `api/solution` (relative, no leading slash) and, on
success, replaces `allActiveSolutionsList` wholesale with the response
body. -/
theorem C7_loadAllActiveSolutionsList_amended (s : SolutionState)
    (responseData : List Solution) :
    (loadAllActiveSolutionsList s responseData).1 =
        { method := "GET", url := "api/solution" } ∧
      (loadAllActiveSolutionsList s responseData).2.1.allActiveSolutionsList =
        responseData ∧
      (loadAllActiveSolutionsList s responseData).2.2 = responseData :=
  ⟨rfl, rfl, rfl⟩

/-- C9: each mutation writes exactly one state field and leaves the other
unchanged: `PUT_SOLUTION_LIST` (committed by `loadSolutionsList`) leaves
`allActiveSolutionsList` unchanged, and `PUT_ALL_ACTIVE_SOLUTIONS_LIST`
(committed by `loadAllActiveSolutionsList`) leaves `allSolutionsList`
unchanged. -/
theorem C9_mutations_frame (s : SolutionState) (id : Nat)
    (d1 : Option (List Solution)) (d2 : List Solution) :
    (PUT_SOLUTION_LIST s d1).allSolutionsList = d1 ∧
      (PUT_SOLUTION_LIST s d1).allActiveSolutionsList =
        s.allActiveSolutionsList ∧
      (PUT_ALL_ACTIVE_SOLUTIONS_LIST s d2).allActiveSolutionsList = d2 ∧
      (PUT_ALL_ACTIVE_SOLUTIONS_LIST s d2).allSolutionsList =
        s.allSolutionsList ∧
      (loadSolutionsList s id d1).2.1.allActiveSolutionsList =
        s.allActiveSolutionsList ∧
      (loadAllActiveSolutionsList s d2).2.1.allSolutionsList =
        s.allSolutionsList :=
  ⟨rfl, rfl, rfl, rfl, rfl, rfl⟩

/-- C10: in the clean state `allSolutionsList` is the empty object, so
`getSolutionsList` returns `undefined` and `getSolutionsListWithCountries`
throws; the merged getter stays unsafe after any completed
`loadAllActiveSolutionsList`, as long as no `loadSolutionsList`
succeeded. -/
theorem C10_clean_state_getter_unsafe :
    cleanState.allSolutionsList = none ∧
      getSolutionsList cleanState = none ∧
      getSolutionsListWithCountries cleanState = none ∧
      ∀ responseData : List Solution,
        getSolutionsListWithCountries
          (loadAllActiveSolutionsList cleanState responseData).2.1 = none :=
  ⟨rfl, rfl, rfl, fun _ => rfl⟩

/-- C5: for a non-empty query, `filterMethod` includes a loaded profile in
`filteredOptions` exactly when the query, compared case-insensitively, is a
prefix of the profile's name or of its email; a match only mid-string does
not qualify. -/
theorem C5_filter_is_ci_anchored_match (userProfiles : List Profile)
    (query : JStr) (hq : query ≠ []) (p : Profile) :
    p ∈ TeamSelector.filterMethod userProfiles query ↔
      p ∈ userProfiles ∧
        (jsToLower query <+: jsToLower p.name ∨
          jsToLower query <+: jsToLower p.email) := by
  unfold TeamSelector.filterMethod
  rw [if_pos hq, List.mem_filter]
  exact and_congr_right (fun _ => TeamSelector.filterPred_iff query hq p)

/-- C5 witness: one concrete profile and the query `a`, matching the
capitalized name `Ab` at its start, through
`C5_filter_is_ci_anchored_match`. -/
theorem C5_filter_is_ci_anchored_match_witness :
    (['a'] : JStr) ≠ [] ∧
      (({ id := 1, label := ['x'], name := ['A', 'b'], email := ['e'] } : Profile) ∈
          TeamSelector.filterMethod
            [{ id := 1, label := ['x'], name := ['A', 'b'], email := ['e'] }]
            ['a'] ↔
        ({ id := 1, label := ['x'], name := ['A', 'b'], email := ['e'] } : Profile) ∈
            [({ id := 1, label := ['x'], name := ['A', 'b'], email := ['e'] } : Profile)] ∧
          (jsToLower ['a'] <+:
              jsToLower (['A', 'b'] : JStr) ∨
            jsToLower ['a'] <+: jsToLower (['e'] : JStr))) :=
  ⟨by decide,
    C5_filter_is_ci_anchored_match
      [{ id := 1, label := ['x'], name := ['A', 'b'], email := ['e'] }]
      ['a'] (by decide)
      { id := 1, label := ['x'], name := ['A', 'b'], email := ['e'] }⟩

/-- C6: the empty (falsy) query always yields the empty option set,
whatever profiles are loaded; and a non-empty query that is a
case-insensitive prefix of no profile's name or email also yields the
empty option set. -/
theorem C6_empty_results (userProfiles : List Profile) :
    TeamSelector.filterMethod userProfiles [] = [] ∧
      ∀ query : JStr, query ≠ [] →
        (∀ p ∈ userProfiles,
          ¬ jsToLower query <+: jsToLower p.name ∧
            ¬ jsToLower query <+: jsToLower p.email) →
        TeamSelector.filterMethod userProfiles query = [] := by
  constructor
  · simp [TeamSelector.filterMethod]
  · intro query hq hnone
    unfold TeamSelector.filterMethod
    rw [if_pos hq, List.filter_eq_nil_iff]
    intro p hp
    rw [TeamSelector.filterPred_iff query hq p]
    obtain ⟨h1, h2⟩ := hnone p hp
    rintro (h | h)
    · exact h1 h
    · exact h2 h

/-- C6 witness: concrete checks of both parts of `C6_empty_results` on one
profile, with the non-matching query `z`. -/
theorem C6_empty_results_witness :
    TeamSelector.filterMethod
        [{ id := 1, label := ['x'], name := ['A', 'b'], email := ['e'] }] [] = [] ∧
      ((['z'] : JStr) ≠ [] ∧
        TeamSelector.filterMethod
          [{ id := 1, label := ['x'], name := ['A', 'b'], email := ['e'] }]
          ['z'] = []) :=
  ⟨(C6_empty_results
      [{ id := 1, label := ['x'], name := ['A', 'b'], email := ['e'] }]).1,
    by decide,
    (C6_empty_results
        [{ id := 1, label := ['x'], name := ['A', 'b'], email := ['e'] }]).2
      ['z'] (by decide) (by decide)⟩

/-- C8: an id sequence containing an id that occurs in no loaded profile
makes the display direction of `innerValue` throw (the lookup yields
`undefined`, then `.label` fails); the edit direction fails the same way
for a label absent from the profile list. -/
theorem C8_unguarded_lookup_crashes (userProfiles : List Profile) :
    (∀ value : List Nat,
        (∃ i ∈ value, ∀ p ∈ userProfiles, p.id ≠ i) →
        TeamSelector.innerValueGet userProfiles value = none) ∧
      (∀ labels : List JStr,
        (∃ lab ∈ labels, ∀ p ∈ userProfiles, p.label ≠ lab) →
        TeamSelector.innerValueSet userProfiles labels = none) := by
  constructor
  · rintro value ⟨i, hiv, hmiss⟩
    have hfind : userProfiles.find? (fun profile => profile.id == i) = none := by
      rw [List.find?_eq_none]
      intro p hp
      simpa using hmiss p hp
    unfold TeamSelector.innerValueGet
    exact mapOrThrow_eq_none hiv (by simp [hfind])
  · rintro labels ⟨lab, hlv, hmiss⟩
    have hfind : userProfiles.find?
        (fun profile => profile.label == lab) = none := by
      rw [List.find?_eq_none]
      intro p hp
      simpa using hmiss p hp
    unfold TeamSelector.innerValueSet
    exact mapOrThrow_eq_none hlv (by simp [hfind])

/-- C8 witness: with a single profile of id 1 and label `x`, the id 2 and
the label `z` each make the corresponding direction throw, through
`C8_unguarded_lookup_crashes`. -/
theorem C8_unguarded_lookup_crashes_witness :
    (∃ i ∈ ([2] : List Nat),
        ∀ p ∈ [({ id := 1, label := ['x'], name := ['n'], email := ['e'] } : Profile)],
          p.id ≠ i) ∧
      TeamSelector.innerValueGet
        [{ id := 1, label := ['x'], name := ['n'], email := ['e'] }] [2] = none ∧
      TeamSelector.innerValueSet
        [{ id := 1, label := ['x'], name := ['n'], email := ['e'] }] [['z']] = none :=
  ⟨by decide,
    (C8_unguarded_lookup_crashes
        [{ id := 1, label := ['x'], name := ['n'], email := ['e'] }]).1
      [2] (by decide),
    (C8_unguarded_lookup_crashes
        [{ id := 1, label := ['x'], name := ['n'], email := ['e'] }]).2
      [['z']] (by decide)⟩

/-- C4 counterexample: with two loaded profiles that share the label `x`,
the id sequence `[2]` — whose only id occurs in the profile list — is
displayed as `[x]`, and editing maps `[x]` back to `[1]`, not `[2]`: the
round trip does not return the original id sequence. -/
theorem C4_counterexample_duplicate_labels :
    (∀ i ∈ ([2] : List Nat),
        ∃ p ∈
          [({ id := 1, label := ['x'], name := ['n'], email := ['e'] } : Profile),
            { id := 2, label := ['x'], name := ['m'], email := ['f'] }],
          p.id = i) ∧
      TeamSelector.innerValueGet
          [{ id := 1, label := ['x'], name := ['n'], email := ['e'] },
            { id := 2, label := ['x'], name := ['m'], email := ['f'] }]
          [2] = some [['x']] ∧
      TeamSelector.innerValueSet
          [{ id := 1, label := ['x'], name := ['n'], email := ['e'] },
            { id := 2, label := ['x'], name := ['m'], email := ['f'] }]
          [['x']] = some [1] ∧
      ([1] : List Nat) ≠ [2] := by
  decide

/-- C4 (amended): when every id of the sequence occurs in the loaded
profile list and the profiles' labels are pairwise distinct, translating
the ids to labels through the display direction of `innerValue` and the
labels back through the edit direction returns the original id sequence,
order preserved. -/
theorem C4_roundtrip_distinct_labels (userProfiles : List Profile)
    (value : List Nat)
    (hpresent : ∀ i ∈ value, ∃ p ∈ userProfiles, p.id = i)
    (hlabels : (userProfiles.map (fun p => p.label)).Nodup) :
    ∃ labels, TeamSelector.innerValueGet userProfiles value = some labels ∧
      TeamSelector.innerValueSet userProfiles labels = some value := by
  induction value with
  | nil => exact ⟨[], rfl, rfl⟩
  | cons i value ih =>
    obtain ⟨labels, hget, hset⟩ := ih (fun j hj => hpresent j (by simp [hj]))
    obtain ⟨p0, hp0mem, hp0id⟩ := hpresent i (by simp)
    have hfindSome :
        (userProfiles.find? (fun profile => profile.id == i)).isSome := by
      rw [List.find?_isSome]
      exact ⟨p0, hp0mem, by simp [hp0id]⟩
    obtain ⟨q, hq⟩ := Option.isSome_iff_exists.mp hfindSome
    have hqid : q.id = i := by simpa using List.find?_some hq
    have hqmem : q ∈ userProfiles := List.mem_of_find?_eq_some hq
    have hlfindSome :
        (userProfiles.find? (fun profile => profile.label == q.label)).isSome := by
      rw [List.find?_isSome]
      exact ⟨q, hqmem, by simp⟩
    obtain ⟨r, hr⟩ := Option.isSome_iff_exists.mp hlfindSome
    have hrlab : r.label = q.label := by simpa using List.find?_some hr
    have hrmem : r ∈ userProfiles := List.mem_of_find?_eq_some hr
    have hrq : r = q := List.inj_on_of_nodup_map hlabels hrmem hqmem hrlab
    refine ⟨q.label :: labels, ?_, ?_⟩
    · unfold TeamSelector.innerValueGet at hget ⊢
      simp [mapOrThrow, hq, hget]
    · unfold TeamSelector.innerValueSet at hset ⊢
      simp [mapOrThrow, hr, hset, hrq, hqid]

/-- C4 witness: two profiles with distinct labels round-trip the id
sequence `[2, 1]` through `C4_roundtrip_distinct_labels`. -/
theorem C4_roundtrip_distinct_labels_witness :
    ∃ labels,
      TeamSelector.innerValueGet
          [{ id := 1, label := ['a'], name := ['n'], email := ['e'] },
            { id := 2, label := ['b'], name := ['m'], email := ['f'] }]
          [2, 1] = some labels ∧
        TeamSelector.innerValueSet
            [{ id := 1, label := ['a'], name := ['n'], email := ['e'] },
              { id := 2, label := ['b'], name := ['m'], email := ['f'] }]
            labels = some [2, 1] :=
  C4_roundtrip_distinct_labels
    [{ id := 1, label := ['a'], name := ['n'], email := ['e'] },
      { id := 2, label := ['b'], name := ['m'], email := ['f'] }]
    [2, 1] (by decide) (by decide)

end Invent
